import Mathlib

/-!
Verification of the file-backed content store of a story-hosting site.

The store (the `file_service` module) reads a catalog file `data/stories.json`,
per-story directories of chapter metadata files `data/chapters/<folder>/NNNN.json`,
and raw chapter HTML content files.  We embed the store's functions shallowly:
the Node.js filesystem (`fs.promises`) and the JSON library (`JSON.parse`,
`JSON.stringify`) are modelled as an explicit environment record `Env`; each
store function becomes a pure function of the environment returning
`Except JsError _` in place of a promise that can reject.
-/

/-- A story record of the catalog file: `{id, title, folder_name, description}`. -/
structure Story where
  id : Int
  title : String
  folder_name : String
  description : String
deriving DecidableEq, Repr

/-- A chapter metadata record:
`{title, chapter_number, original_file_name, content_path}`. -/
structure Chapter where
  title : String
  chapter_number : Int
  original_file_name : String
  content_path : String
deriving DecidableEq, Repr

/-- Errors raised by `fs.promises` operations, distinguished the way the code
distinguishes them: by whether `error.code === 'ENOENT'`. -/
inductive FsError where
  | enoent : FsError
  | other : FsError
deriving DecidableEq, Repr

/-- Errors observable in the store: a filesystem error (which carries a `code`)
or a `JSON.parse` syntax error (which has no `code` property). -/
inductive JsError where
  | fs (e : FsError) : JsError
  | parse : JsError
deriving DecidableEq, Repr

/-- The test `error.code === 'ENOENT'` of the catch blocks: true exactly for a filesystem not-found error;
a `JSON.parse` syntax error has no `code` property, so the test is false. -/
def hasCodeEnoent : JsError → Bool
  | .fs .enoent => true
  | _ => false

/-- The ambient state a store call runs against: the filesystem
(`readdir`, `readFile`) and the JSON library (`JSON.parse` specialised to the
two record shapes read here, and `JSON.stringify` on a chapter record).
Parsing is a deterministic partial function: `none` models a `SyntaxError`
thrown by `JSON.parse`, which is never an `ENOENT`-coded error. -/
structure Env where
  readdir : String → Except FsError (List String)
  readFile : String → Except FsError String
  parseChapter : String → Option Chapter
  parseStories : String → Option (List Story)
  stringifyChapter : Chapter → String

/-- Model of `path.join(a, b)` for the plain path segments used by this code base
(no `..`, no absolute second argument): concatenation with a separator. -/
def pathJoin (a b : String) : String := a ++ "/" ++ b

/-- The directory of the application module (`__dirname`); its concrete value
is irrelevant to every property below. -/
def dirnameApp : String := "/app"

/-- The constant `DATA_DIR = path.join(__dirname, 'data')`. -/
def DATA_DIR : String := pathJoin dirnameApp "data"

/-- The constant `STORIES_FILE = path.join(DATA_DIR, 'stories.json')`. -/
def STORIES_FILE : String := pathJoin DATA_DIR "stories.json"

/-- The constant `CHAPTERS_METADATA_DIR = path.join(DATA_DIR, 'chapters')`. -/
def CHAPTERS_METADATA_DIR : String := pathJoin DATA_DIR "chapters"

/-- Model of `s.endsWith(suffix)` of JavaScript, on the character lists of the
two strings. -/
def jsEndsWith (s suffix : String) : Bool := List.isSuffixOf suffix.data s.data

/-- The function `getStories()`: reads `data/stories.json`, parses it, and returns the
parsed array unchanged; any read or parse error is re-thrown to the caller. -/
def getStories (env : Env) : Except JsError (List Story) :=
  match env.readFile STORIES_FILE with
  | .error e => .error (.fs e)
  | .ok fileContent =>
    match env.parseStories fileContent with
    | none => .error .parse
    | some stories => .ok stories

/-- The function `getStoryByFolderName(folderName)`: `stories.find(s => s.folder_name ===
folderName)`; resolves to the story object or `undefined` if not found, and
re-throws any error from `getStories`. -/
def getStoryByFolderName (env : Env) (folderName : String) :
    Except JsError (Option Story) :=
  match getStories env with
  | .error e => .error e
  | .ok stories => .ok (stories.find? (fun s => s.folder_name == folderName))

/-- The path `path.join(CHAPTERS_METADATA_DIR, folderName)`, the per-story chapter
metadata directory. -/
def storyChaptersDir (folderName : String) : String :=
  pathJoin CHAPTERS_METADATA_DIR folderName

/-- The ordering the chapter sort comparator `(a, b) => a.chapter_number -
b.chapter_number` implements: ascending `chapter_number`. -/
def chapterLe (a b : Chapter) : Prop := a.chapter_number ≤ b.chapter_number

instance : DecidableRel chapterLe := fun a b =>
  inferInstanceAs (Decidable (a.chapter_number ≤ b.chapter_number))

instance : IsTotal Chapter chapterLe :=
  ⟨fun a b => Int.le_total a.chapter_number b.chapter_number⟩

instance : IsTrans Chapter chapterLe :=
  ⟨fun _ _ _ hab hbc => le_trans hab hbc⟩

/-- The call `chapters.sort((a, b) => a.chapter_number - b.chapter_number)`: a stable
sort ascending by `chapter_number` (ES2019 `Array.prototype.sort` is stable),
modelled as insertion sort. -/
def sortChapters (chapters : List Chapter) : List Chapter :=
  List.insertionSort chapterLe chapters

/-- The body of `jsonFiles.map(async jsonFile => ...)` and the `Promise.all`
collecting it: read and parse each metadata file.  The first failure rejects
the whole call; modelling the rejection order as list order is faithful here
because every property below depends only on the class of the failure, never
on which of several same-class failures surfaces. -/
def readAndParseAll (env : Env) (dir : String) : List String → Except JsError (List Chapter)
  | [] => .ok []
  | jsonFile :: rest =>
    match env.readFile (pathJoin dir jsonFile) with
    | .error e => .error (.fs e)
    | .ok fileContent =>
      match env.parseChapter fileContent with
      | none => .error .parse
      | some chapter =>
        match readAndParseAll env dir rest with
        | .error e => .error e
        | .ok chapters => .ok (chapter :: chapters)

/-- The `try` body of `getChaptersForStory(folderName)`: lists the story's
metadata directory, keeps the `.json` files, returns `[]` when none remain,
otherwise reads and parses each and returns them sorted by `chapter_number`. -/
def getChaptersBody (env : Env) (folderName : String) :
    Except JsError (List Chapter) :=
  match env.readdir (storyChaptersDir folderName) with
  | .error e => .error (.fs e)
  | .ok files =>
    if (files.filter fun file => jsEndsWith file ".json").length = 0 then .ok []
    else
      match readAndParseAll env (storyChaptersDir folderName)
          (files.filter fun file => jsEndsWith file ".json") with
      | .error e => .error e
      | .ok chapters => .ok (sortChapters chapters)

/-- The function `getChaptersForStory(folderName)`: the `try` wraps the whole body, and the
`catch` returns `[]` when `error.code === 'ENOENT'` and re-throws otherwise. -/
def getChaptersForStory (env : Env) (folderName : String) :
    Except JsError (List Chapter) :=
  match getChaptersBody env folderName with
  | .error e => if hasCodeEnoent e then .ok [] else .error e
  | .ok chapters => .ok chapters

/-- The function `getChapterDetails(storyFolderName, chapterFileNameWithoutExt)`: reads and
parses `data/chapters/<story>/<key>.json`; returns `undefined` (here `none`)
when the read fails with `ENOENT`, and re-throws every other error. -/
def getChapterDetails (env : Env) (storyFolderName chapterFileNameWithoutExt : String) :
    Except JsError (Option Chapter) :=
  match env.readFile (pathJoin (pathJoin CHAPTERS_METADATA_DIR storyFolderName)
      (chapterFileNameWithoutExt ++ ".json")) with
  | .error .enoent => .ok none
  | .error e => .error (.fs e)
  | .ok fileContent =>
    match env.parseChapter fileContent with
    | none => .error .parse
    | some chapterDetails => .ok (some chapterDetails)

/-- The function `readChapterContent(contentPath)`: reads `path.join(__dirname,
contentPath)` and re-throws any error unchanged (the `catch` only logs). -/
def readChapterContent (env : Env) (contentPath : String) : Except JsError String :=
  match env.readFile (pathJoin dirnameApp contentPath) with
  | .error e => .error (.fs e)
  | .ok htmlContent => .ok htmlContent

/-- Model of `Array.prototype.findIndex` with a running index: returns the index of the
first element satisfying the predicate, `-1` if none does. -/
def jsFindIndexAux (p : Chapter → Bool) : List Chapter → Int → Int
  | [], _ => -1
  | chap :: rest, i => if p chap then i else jsFindIndexAux p rest (i + 1)

/-- The call `allChapters.findIndex(p)`. -/
def jsFindIndex (p : Chapter → Bool) (allChapters : List Chapter) : Int :=
  jsFindIndexAux p allChapters 0

/-- The adjacent-chapter resolution of the chapter route handler:
`currentChapterIndex = allChapters.findIndex(chap => chap.original_file_name
=== chapterMetadata.original_file_name)`, then `previousChapter =
allChapters[currentChapterIndex - 1]` when `currentChapterIndex > 0` and
`nextChapter = allChapters[currentChapterIndex + 1]` when
`currentChapterIndex < allChapters.length - 1`, both `null` otherwise. -/
def adjacentChapters (allChapters : List Chapter) (chapterMetadata : Chapter) :
    Option Chapter × Option Chapter :=
  let currentChapterIndex := jsFindIndex
    (fun chap => chap.original_file_name == chapterMetadata.original_file_name)
    allChapters
  let previousChapter :=
    if 0 < currentChapterIndex then allChapters[(currentChapterIndex - 1).toNat]?
    else none
  let nextChapter :=
    if currentChapterIndex < (allChapters.length : Int) - 1 then
      allChapters[(currentChapterIndex + 1).toNat]?
    else none
  (previousChapter, nextChapter)

/-- Replace the first occurrence of `pat` by `rep`, on character lists. -/
def replaceFirstAux (rep pat : List Char) : List Char → List Char
  | [] => []
  | c :: rest =>
    if List.isPrefixOf pat (c :: rest) then rep ++ (c :: rest).drop pat.length
    else c :: replaceFirstAux rep pat rest

/-- Model of `s.replace(pat, rep)` of JavaScript with a string pattern: replaces only
the first occurrence. -/
def jsReplace (s pat rep : String) : String :=
  String.mk (replaceFirstAux rep.data pat.data s.data)

/-- The effect of `fs.writeFile(p, content)`: subsequent reads of `p` see `content`;
everything else in the environment is unchanged.  (The directory listing
update does not matter for any property below, which read files back by
exact path only.) -/
def writeFileEnv (env : Env) (p content : String) : Env :=
  { env with readFile := fun q => if q = p then .ok content else env.readFile q }

/-- The `chapterMetadata` object the create-chapter route builds:
`{title, chapter_number: numChapterNumber, original_file_name, content_path:
path.join(story_folder_name, original_file_name)}` (already POSIX here). -/
def chapterMetadataRecord (story_folder_name title original_file_name : String)
    (numChapterNumber : Int) : Chapter :=
  { title := title
    chapter_number := numChapterNumber
    original_file_name := original_file_name
    content_path := pathJoin story_folder_name original_file_name }

/-- The validation regex `/^\d{4,}\.html$/` of the create-chapter route. -/
def matchesChapterFileName (s : String) : Bool :=
  jsEndsWith s ".html" && decide (4 ≤ s.length - 5)
    && (s.data.take (s.data.length - 5)).all Char.isDigit

/-- The file-creating tail of `POST /admin/stories/:story/chapters` (after
validation): writes the HTML content file at
`path.join(__dirname, story_folder_name, original_file_name)`, then writes the
metadata record, JSON-stringified, at `path.join(__dirname, 'data',
'chapters', story_folder_name, original_file_name.replace('.html', '.json'))`. -/
def createChapter (env : Env) (story_folder_name title original_file_name content : String)
    (numChapterNumber : Int) : Env :=
  let contentFilePath := pathJoin (pathJoin dirnameApp story_folder_name) original_file_name
  let envAfterContent := writeFileEnv env contentFilePath content
  let metadataFileName := jsReplace original_file_name ".html" ".json"
  let metadataFilePath :=
    pathJoin (pathJoin CHAPTERS_METADATA_DIR story_folder_name) metadataFileName
  let chapterMetadata :=
    chapterMetadataRecord story_folder_name title original_file_name numChapterNumber
  writeFileEnv envAfterContent metadataFilePath (env.stringifyChapter chapterMetadata)

/-! ### Concrete sample data used by the witness theorems -/

/-- A sample chapter with number 1. -/
def chOne : Chapter :=
  { title := "A", chapter_number := 1, original_file_name := "0001.html",
    content_path := "st/0001.html" }

/-- A sample chapter with number 5 (the numbering has a gap). -/
def chFive : Chapter :=
  { title := "B", chapter_number := 5, original_file_name := "0005.html",
    content_path := "st/0005.html" }

/-- A sample chapter with number 7. -/
def chSeven : Chapter :=
  { title := "C", chapter_number := 7, original_file_name := "0007.html",
    content_path := "st/0007.html" }

/-- An environment whose directory listing for story `st` presents the two
chapter files out of numeric order and with a non-JSON file in between. -/
def envTwoChapters : Env :=
  { readdir := fun d =>
      if d = storyChaptersDir "st" then .ok ["0005.json", "notes.txt", "0001.json"]
      else .error .enoent
    readFile := fun q =>
      if q = pathJoin (storyChaptersDir "st") "0001.json" then .ok "one"
      else if q = pathJoin (storyChaptersDir "st") "0005.json" then .ok "five"
      else .error .enoent
    parseChapter := fun s =>
      if s = "one" then some chOne
      else if s = "five" then some chFive
      else none
    parseStories := fun _ => none
    stringifyChapter := fun _ => "enc0" }

/-- An environment where every filesystem operation fails with `ENOENT`. -/
def envAllMissing : Env :=
  { readdir := fun _ => .error .enoent
    readFile := fun _ => .error .enoent
    parseChapter := fun _ => none
    parseStories := fun _ => none
    stringifyChapter := fun _ => "enc0" }

/-- An environment whose single chapter metadata file holds malformed JSON. -/
def envBadJson : Env :=
  { readdir := fun d =>
      if d = storyChaptersDir "st" then .ok ["0001.json"] else .error .enoent
    readFile := fun q =>
      if q = pathJoin (storyChaptersDir "st") "0001.json" then .ok "not-json"
      else .error .enoent
    parseChapter := fun _ => none
    parseStories := fun _ => none
    stringifyChapter := fun _ => "enc0" }

/-- An environment whose chapter directory for story `st` exists but holds no
`.json` file. -/
def envJsonless : Env :=
  { readdir := fun d =>
      if d = storyChaptersDir "st" then .ok ["readme.txt"] else .error .enoent
    readFile := fun _ => .error .other
    parseChapter := fun _ => none
    parseStories := fun _ => none
    stringifyChapter := fun _ => "enc0" }

/-- Environment `envJsonless` with the non-`.json` entry removed from the listing. -/
def envJsonlessB : Env :=
  { envJsonless with readdir := fun _ => .ok [] }

/-- A sample story. -/
def storyAlpha : Story :=
  { id := 1, title := "Alpha", folder_name := "st", description := "first" }

/-- A second story sharing `folder_name` with `storyAlpha`. -/
def storyAlphaDup : Story :=
  { id := 2, title := "Alpha again", folder_name := "st", description := "dup" }

/-- A third story with a distinct `folder_name`. -/
def storyBeta : Story :=
  { id := 3, title := "Beta", folder_name := "beta", description := "second" }

/-- An environment whose catalog file parses to three stories, two of which
share a `folder_name`. -/
def envCatalog : Env :=
  { readdir := fun _ => .error .enoent
    readFile := fun q => if q = STORIES_FILE then .ok "catalog" else .error .enoent
    parseChapter := fun _ => none
    parseStories := fun s =>
      if s = "catalog" then some [storyAlpha, storyAlphaDup, storyBeta] else none
    stringifyChapter := fun _ => "enc0" }

/-- The chapter record the round-trip witness writes. -/
def chWritten : Chapter := chapterMetadataRecord "st" "A" "0001.html" 1

/-- An environment whose JSON codec round-trips the witness record: it
stringifies every chapter to a fixed token and parses that token back to
`chWritten`. -/
def envCodec : Env :=
  { readdir := fun _ => .error .enoent
    readFile := fun _ => .error .enoent
    parseChapter := fun s => if s = "enc" then some chWritten else none
    parseStories := fun _ => none
    stringifyChapter := fun _ => "enc" }


/-! ### Theorems -/

/-- Claim C2: when the story's chapter-metadata directory is absent (the
directory read fails with `ENOENT`), `getChaptersForStory` returns an empty
sequence rather than propagating an error. -/
theorem getChaptersForStory_dir_absent (env : Env) (folderName : String)
    (h : env.readdir (storyChaptersDir folderName) = .error .enoent) :
    getChaptersForStory env folderName = .ok [] := by
  unfold getChaptersForStory getChaptersBody
  rw [h]
  rfl

theorem getChaptersForStory_dir_absent_witness :
    envAllMissing.readdir (storyChaptersDir "new-story") = .error .enoent ∧
    getChaptersForStory envAllMissing "new-story" = .ok [] :=
  ⟨rfl, getChaptersForStory_dir_absent envAllMissing "new-story" rfl⟩

/-- Claim C3: `readChapterContent` on a missing file surfaces the `ENOENT`
error itself, which is a value distinct from the one surfaced for any other
I/O error, so the caller can tell the two apart. -/
theorem readChapterContent_notfound_distinct (env : Env) (contentPath : String) :
    (env.readFile (pathJoin dirnameApp contentPath) = .error .enoent →
      readChapterContent env contentPath = .error (.fs .enoent)) ∧
    (env.readFile (pathJoin dirnameApp contentPath) = .error .other →
      readChapterContent env contentPath = .error (.fs .other)) ∧
    JsError.fs .enoent ≠ JsError.fs .other := by
  refine ⟨fun h => ?_, fun h => ?_, by decide⟩ <;> unfold readChapterContent <;> rw [h]

theorem readChapterContent_notfound_distinct_witness :
    readChapterContent envAllMissing "st/0001.html" = .error (.fs .enoent) :=
  (readChapterContent_notfound_distinct envAllMissing "st/0001.html").1 rfl

/-- Claim C5: `getChapterDetails` returns `none` (the not-found result)
exactly when reading `data/chapters/<story>/<key>.json` fails with `ENOENT`;
it returns the parsed record when the file exists and parses; and it
propagates any other read error to the caller. -/
theorem getChapterDetails_spec (env : Env) (storyFolderName chapterKey : String) :
    (getChapterDetails env storyFolderName chapterKey = .ok none ↔
      env.readFile (pathJoin (pathJoin CHAPTERS_METADATA_DIR storyFolderName)
        (chapterKey ++ ".json")) = .error .enoent) ∧
    (∀ s c,
      env.readFile (pathJoin (pathJoin CHAPTERS_METADATA_DIR storyFolderName)
        (chapterKey ++ ".json")) = .ok s →
      env.parseChapter s = some c →
      getChapterDetails env storyFolderName chapterKey = .ok (some c)) ∧
    (∀ e, e ≠ FsError.enoent →
      env.readFile (pathJoin (pathJoin CHAPTERS_METADATA_DIR storyFolderName)
        (chapterKey ++ ".json")) = .error e →
      getChapterDetails env storyFolderName chapterKey = .error (.fs e)) := by
  unfold getChapterDetails
  cases hread : env.readFile (pathJoin (pathJoin CHAPTERS_METADATA_DIR storyFolderName)
      (chapterKey ++ ".json")) with
  | error e =>
    cases e with
    | enoent =>
      refine ⟨by simp, ?_, ?_⟩
      · intro s c hs _
        cases hs
      · intro e he h
        cases h
        exact absurd rfl he
    | other =>
      refine ⟨by simp, ?_, ?_⟩
      · intro s c hs _
        cases hs
      · intro e _ h
        cases h
        rfl
  | ok s =>
    cases hparse : env.parseChapter s with
    | none =>
      refine ⟨by simp [hparse], ?_, ?_⟩
      · intro t c ht hc
        cases ht
        rw [hparse] at hc
        cases hc
      · intro e _ h
        cases h
    | some c =>
      refine ⟨by simp [hparse], ?_, ?_⟩
      · intro t d ht hd
        cases ht
        rw [hparse] at hd
        cases hd
        simp [hparse]
      · intro e _ h
        cases h

theorem getChapterDetails_spec_witness :
    getChapterDetails envAllMissing "st" "0001" = .ok none ∧
    getChapterDetails envTwoChapters "st" "0001" = .ok (some chOne) :=
  ⟨(getChapterDetails_spec envAllMissing "st" "0001").1.mpr rfl,
   (getChapterDetails_spec envTwoChapters "st" "0001").2.1 "one" chOne rfl rfl⟩

/-- Claim C8: on a valid catalog file, `getStories` returns exactly the list
the file parses to — entries in file order, every field unchanged. -/
theorem getStories_file_order (env : Env) (fileContent : String) (stories : List Story)
    (hread : env.readFile STORIES_FILE = .ok fileContent)
    (hparse : env.parseStories fileContent = some stories) :
    getStories env = .ok stories := by
  simp [getStories, hread, hparse]

theorem getStories_file_order_witness :
    getStories envCatalog = .ok [storyAlpha, storyAlphaDup, storyBeta] :=
  getStories_file_order envCatalog "catalog" [storyAlpha, storyAlphaDup, storyBeta] rfl rfl

/-- Whenever the `try` body of `getChaptersForStory` succeeds, the list it
produces is sorted ascending by `chapter_number`. -/
lemma getChaptersBody_sorted (env : Env) (folderName : String)
    (chapters : List Chapter) (h : getChaptersBody env folderName = .ok chapters) :
    List.Sorted chapterLe chapters := by
  unfold getChaptersBody at h
  split at h
  · cases h
  · split at h
    · cases h
      exact List.sorted_nil
    · split at h
      · cases h
      · cases h
        exact List.sorted_insertionSort chapterLe _

/-- Claim C1: every list `getChaptersForStory` successfully returns is sorted
ascending by `chapter_number`; the environment (hence the order in which the
directory listing presents the files) is arbitrary. -/
theorem getChaptersForStory_sorted (env : Env) (folderName : String)
    (chapters : List Chapter)
    (h : getChaptersForStory env folderName = .ok chapters) :
    List.Sorted chapterLe chapters := by
  unfold getChaptersForStory at h
  split at h
  · split at h
    · cases h
      exact List.sorted_nil
    · cases h
  · rename_i cs heq
    cases h
    exact getChaptersBody_sorted env folderName _ heq

theorem getChaptersForStory_sorted_witness :
    getChaptersForStory envTwoChapters "st" = .ok [chOne, chFive] ∧
    List.Sorted chapterLe [chOne, chFive] :=
  ⟨rfl, getChaptersForStory_sorted envTwoChapters "st" [chOne, chFive] rfl⟩

/-- The function `readAndParseAll` only looks at the `readFile` and `parseChapter` fields
of the environment. -/
lemma readAndParseAll_congr (env envB : Env) (dir : String)
    (hrf : env.readFile = envB.readFile) (hpc : env.parseChapter = envB.parseChapter) :
    ∀ l : List String, readAndParseAll env dir l = readAndParseAll envB dir l
  | [] => rfl
  | f :: rest => by
    simp only [readAndParseAll, hrf, hpc,
      readAndParseAll_congr env envB dir hrf hpc rest]

/-- Unfolding of the `try` body once the directory listing is known. -/
lemma getChaptersBody_filter_eq (env : Env) (folderName : String)
    (files : List String)
    (hdir : env.readdir (storyChaptersDir folderName) = .ok files) :
    getChaptersBody env folderName =
      (if (files.filter fun file => jsEndsWith file ".json").length = 0 then .ok []
       else
        match readAndParseAll env (storyChaptersDir folderName)
            (files.filter fun file => jsEndsWith file ".json") with
        | .error e => .error e
        | .ok chapters => .ok (sortChapters chapters)) := by
  unfold getChaptersBody
  rw [hdir]

/-- Claim C9: `getChaptersForStory` considers only the directory entries
ending in `.json` — its result is unchanged by any non-`.json` entries in the
listing — and a directory that exists but has no `.json` files yields `[]`
rather than an error. -/
theorem getChaptersForStory_only_json (env envB : Env) (folderName : String)
    (files filesB : List String)
    (hdir : env.readdir (storyChaptersDir folderName) = .ok files)
    (hdirB : envB.readdir (storyChaptersDir folderName) = .ok filesB)
    (hsame : files.filter (fun file => jsEndsWith file ".json") =
      filesB.filter (fun file => jsEndsWith file ".json"))
    (hrf : env.readFile = envB.readFile)
    (hpc : env.parseChapter = envB.parseChapter) :
    getChaptersForStory env folderName = getChaptersForStory envB folderName ∧
    (files.filter (fun file => jsEndsWith file ".json") = [] →
      getChaptersForStory env folderName = .ok []) := by
  have hbody : getChaptersBody env folderName = getChaptersBody envB folderName := by
    rw [getChaptersBody_filter_eq env folderName files hdir,
      getChaptersBody_filter_eq envB folderName filesB hdirB, hsame,
      readAndParseAll_congr env envB (storyChaptersDir folderName) hrf hpc]
  constructor
  · unfold getChaptersForStory
    rw [hbody]
  · intro hempty
    unfold getChaptersForStory
    rw [getChaptersBody_filter_eq env folderName files hdir, hempty]
    rfl

theorem getChaptersForStory_only_json_witness :
    getChaptersForStory envJsonless "st" = getChaptersForStory envJsonlessB "st" ∧
    getChaptersForStory envJsonless "st" = .ok [] :=
  ⟨(getChaptersForStory_only_json envJsonless envJsonlessB "st" ["readme.txt"] []
      rfl rfl rfl rfl rfl).1,
   (getChaptersForStory_only_json envJsonless envJsonlessB "st" ["readme.txt"] []
      rfl rfl rfl rfl rfl).2 rfl⟩

/-- If every listed metadata file can be read but at least one of them fails
to parse, the whole read-and-parse step rejects with the parse error. -/
lemma readAndParseAll_parse_error (env : Env) (dir : String) :
    ∀ l : List String,
      (∀ f ∈ l, ∃ s, env.readFile (pathJoin dir f) = .ok s) →
      (∃ f ∈ l, ∃ s, env.readFile (pathJoin dir f) = .ok s ∧
        env.parseChapter s = none) →
      readAndParseAll env dir l = .error .parse
  | [], _, hbad => absurd hbad (by simp)
  | f :: rest, hreads, hbad => by
    obtain ⟨s, hs⟩ := hreads f (List.mem_cons_self f rest)
    cases hparse : env.parseChapter s with
    | none => simp [readAndParseAll, hs, hparse]
    | some c =>
      have hrest : ∃ g ∈ rest, ∃ t, env.readFile (pathJoin dir g) = .ok t ∧
          env.parseChapter t = none := by
        obtain ⟨g, hg, t, ht, htn⟩ := hbad
        rcases List.mem_cons.mp hg with hg | hg
        · subst hg
          rw [hs] at ht
          cases ht
          rw [hparse] at htn
          cases htn
        · exact ⟨g, hg, t, ht, htn⟩
      simp [readAndParseAll, hs, hparse,
        readAndParseAll_parse_error env dir rest
          (fun x hx => hreads x (List.mem_cons_of_mem f hx)) hrest]

/-- Claim C6: when the chapter directory exists and some chapter metadata
file fails to parse, the whole `getChaptersForStory` call fails with the
parse error — no partial result, no skipped file. -/
theorem getChaptersForStory_parse_error (env : Env) (folderName : String)
    (files : List String)
    (hdir : env.readdir (storyChaptersDir folderName) = .ok files)
    (hreads : ∀ f ∈ files.filter (fun file => jsEndsWith file ".json"),
      ∃ s, env.readFile (pathJoin (storyChaptersDir folderName) f) = .ok s)
    (hbad : ∃ f ∈ files.filter (fun file => jsEndsWith file ".json"),
      ∃ s, env.readFile (pathJoin (storyChaptersDir folderName) f) = .ok s ∧
        env.parseChapter s = none) :
    getChaptersForStory env folderName = .error JsError.parse := by
  have hne : ¬ (files.filter fun file => jsEndsWith file ".json").length = 0 := by
    obtain ⟨g, hg, _⟩ := hbad
    intro h0
    rw [List.length_eq_zero] at h0
    rw [h0] at hg
    cases hg
  unfold getChaptersForStory
  rw [getChaptersBody_filter_eq env folderName files hdir, if_neg hne,
    readAndParseAll_parse_error env (storyChaptersDir folderName) _ hreads hbad]
  rfl

theorem getChaptersForStory_parse_error_witness :
    getChaptersForStory envBadJson "st" = .error JsError.parse :=
  getChaptersForStory_parse_error envBadJson "st" ["0001.json"] rfl
    (by
      intro f hf
      have hf1 : f = "0001.json" := by
        have hm := (List.mem_filter.mp hf).1
        simpa using hm
      subst hf1
      exact ⟨"not-json", rfl⟩)
    ⟨"0001.json", by decide, "not-json", rfl, rfl⟩

/-- The function `List.find?` returns the first element satisfying the predicate: the
found element satisfies it and everything before it fails it. -/
lemma find?_eq_first_match {α : Type} (p : α → Bool) :
    ∀ (l : List α) (a : α), l.find? p = some a →
      p a = true ∧ ∃ pre post, l = pre ++ a :: post ∧ ∀ t ∈ pre, p t = false
  | [], _, h => by cases h
  | x :: xs, a, h => by
    cases hx : p x with
    | true =>
      rw [List.find?_cons_of_pos _ hx] at h
      cases h
      exact ⟨hx, [], xs, rfl, by simp⟩
    | false =>
      rw [List.find?_cons_of_neg _ (by simp [hx])] at h
      obtain ⟨hpa, pre, post, heq, hpre⟩ := find?_eq_first_match p xs a h
      subst heq
      refine ⟨hpa, x :: pre, post, rfl, ?_⟩
      intro t ht
      rcases List.mem_cons.mp ht with ht | ht
      · subst ht
        exact hx
      · exact hpre t ht

/-- Claim C10: `getStoryByFolderName` returns the first catalog entry whose
`folder_name` equals the argument (even when several entries share it), and
returns `none` exactly when no entry matches. -/
theorem getStoryByFolderName_first_match (env : Env) (folderName : String)
    (stories : List Story) (h : getStories env = .ok stories) :
    getStoryByFolderName env folderName =
      .ok (stories.find? (fun s => s.folder_name == folderName)) ∧
    (stories.find? (fun s => s.folder_name == folderName) = none ↔
      ∀ s ∈ stories, s.folder_name ≠ folderName) ∧
    (∀ st, stories.find? (fun s => s.folder_name == folderName) = some st →
      st.folder_name = folderName ∧
      ∃ pre post, stories = pre ++ st :: post ∧
        ∀ t ∈ pre, t.folder_name ≠ folderName) := by
  refine ⟨by unfold getStoryByFolderName; rw [h], ?_, ?_⟩
  · rw [List.find?_eq_none]
    simp
  · intro st hst
    obtain ⟨hp, pre, post, heq, hpre⟩ :=
      find?_eq_first_match (fun s => s.folder_name == folderName) stories st hst
    refine ⟨by simpa using hp, pre, post, heq, ?_⟩
    intro t ht
    simpa using hpre t ht

theorem getStoryByFolderName_first_match_witness :
    getStoryByFolderName envCatalog "st" = .ok (some storyAlpha) := by
  have h := (getStoryByFolderName_first_match envCatalog "st"
    [storyAlpha, storyAlphaDup, storyBeta] rfl).1
  rw [h]
  rfl

/-- Claim C4: adjacent-chapter resolution is by array position.  For any
three chapters with pairwise distinct `original_file_name` — their
`chapter_number` values are arbitrary, so gaps or ties in numbering are
covered — the middle chapter's neighbours are the first and third, the first
has no previous, and the third has no next. -/
theorem adjacentChapters_by_position (c1 c2 c3 : Chapter)
    (h12 : c1.original_file_name ≠ c2.original_file_name)
    (h13 : c1.original_file_name ≠ c3.original_file_name)
    (h23 : c2.original_file_name ≠ c3.original_file_name) :
    adjacentChapters [c1, c2, c3] c1 = (none, some c2) ∧
    adjacentChapters [c1, c2, c3] c2 = (some c1, some c3) ∧
    adjacentChapters [c1, c2, c3] c3 = (some c2, none) := by
  refine ⟨?_, ?_, ?_⟩ <;>
    simp [adjacentChapters, jsFindIndex, jsFindIndexAux, h12, h13, h23,
      h12.symm, h13.symm, h23.symm]

theorem adjacentChapters_by_position_witness :
    adjacentChapters [chOne, chFive, chSeven] chFive = (some chOne, some chSeven) :=
  (adjacentChapters_by_position chOne chFive chSeven
    (by decide) (by decide) (by decide)).2.1

/-- The character list of `".html"`. -/
lemma dot_html_data : ".html".data = ['.', 'h', 't', 'm', 'l'] := rfl

/-- The pattern `".html"` is never a prefix of a list starting with a digit. -/
lemma isPrefixOf_html_digit (d : Char) (hd : d.isDigit = true) (l : List Char) :
    List.isPrefixOf ".html".data (d :: l) = false := by
  have hne : ('.' == d) = false := by
    cases hbe : ('.' == d)
    · rfl
    · exfalso
      have heq : '.' = d := by simpa using hbe
      rw [← heq] at hd
      exact absurd hd (by decide)
  rw [dot_html_data]
  simp [List.isPrefixOf, hne]

/-- Replacing the first `".html"` in `<digits>.html` rewrites the suffix:
the digits contain no other occurrence of the pattern. -/
lemma replaceFirstAux_digits :
    ∀ ds : List Char, (∀ c ∈ ds, c.isDigit = true) →
      replaceFirstAux ".json".data ".html".data (ds ++ ".html".data) =
        ds ++ ".json".data
  | [], _ => rfl
  | d :: ds, hds => by
    have hd := hds d (List.mem_cons_self d ds)
    simp [List.cons_append, replaceFirstAux, isPrefixOf_html_digit d hd,
      replaceFirstAux_digits ds fun c hc => hds c (List.mem_cons_of_mem d hc)]

/-- Applying `original_file_name.replace('.html', '.json')` to an accepted file name
`<digits>.html` yields `<digits>.json`. -/
lemma jsReplace_digits_html (root : String) (hds : ∀ c ∈ root.data, c.isDigit = true) :
    jsReplace (root ++ ".html") ".html" ".json" = root ++ ".json" := by
  unfold jsReplace
  rw [String.data_append, replaceFirstAux_digits root.data hds, ← String.data_append]

/-- Claim C7: a chapter metadata record accepted by the create-chapter
operation (file name `<digits>.html` with at least four digits, positive
chapter number), once written, reads back field-for-field equal via
`getChapterDetails` with the corresponding chapter key, provided the JSON
codec round-trips the record. -/
theorem createChapter_roundtrip (env : Env) (story title content root : String)
    (n : Int)
    (hds : ∀ c ∈ root.data, c.isDigit = true)
    (hlen : 4 ≤ root.length) (hpos : 0 < n)
    (hrt : env.parseChapter (env.stringifyChapter
        (chapterMetadataRecord story title (root ++ ".html") n)) =
      some (chapterMetadataRecord story title (root ++ ".html") n)) :
    getChapterDetails (createChapter env story title (root ++ ".html") content n)
        story root =
      .ok (some (chapterMetadataRecord story title (root ++ ".html") n)) := by
  simp [createChapter, getChapterDetails, writeFileEnv,
    jsReplace_digits_html root hds, hrt]

theorem createChapter_roundtrip_witness :
    (∀ c ∈ "0001".data, c.isDigit = true) ∧
    getChapterDetails (createChapter envCodec "st" "A" ("0001" ++ ".html") "x" 1)
        "st" "0001" =
      .ok (some (chapterMetadataRecord "st" "A" ("0001" ++ ".html") 1)) :=
  ⟨by decide,
   createChapter_roundtrip envCodec "st" "A" "x" "0001" 1
    (by decide) (by decide) (by decide) (by decide)⟩
